import Mathlib

/-!
Shallow embedding of the job-tracker ingestion pipeline
(`backend/app/scrapers/base.py`, `backend/app/scrapers/indeed.py`,
`backend/app/services/job_service.py`, `backend/app/models.py`)
and proofs about its specified properties.

External effects are modelled as explicit parameters:
the rendered-page fetch is an oracle `String → Except String Page`
(an `Except.error` stands for a raised navigation/timeout exception),
the percent-encoder `urllib.parse.quote_plus` is an abstract
`String → String`, and per-record storage faults are an oracle
`Nat → Option DbFault` consulted at each commit.  Machine state that
the Python code keeps on the scraper instance (accumulated jobs) or
produces as side effects (HTTP requests issued, `random_delay` calls)
is threaded explicitly through a `ScrapeState`.
-/

namespace JobTracker

/-- A raw job record, the dict built by `IndeedScraper.parse_job_listing`;
its fields are the columns of the `Job` model that the scraper fills. -/
structure JobData where
  job_title : String
  job_board_url : String
  company : String
  location : String
  salary_range : Option String
  description : String
  job_board_source : String
  requirements : Option String
deriving Repr, DecidableEq

/-- An anchor node as seen by the parser: its stripped text and its
optional `href` attribute (`get('href', '')` yields `""` when absent). -/
structure LinkNode where
  text : String
  href : Option String
deriving Repr, DecidableEq

/-- The node found for the job title (an `h2.jobTitle` or an
`a.jcs-JobTitle`); `anchor` is the result of `title_elem.find('a')`. -/
structure TitleNode where
  text : String
  href : Option String
  anchor : Option LinkNode
deriving Repr, DecidableEq

/-- One job-card element, abstracted to the results of the `find` calls
`parse_job_listing` performs on it: each field holds the stripped text
of the corresponding selector when it matched, and the two title
selectors return whole title nodes. -/
structure JobElement where
  titleH2 : Option TitleNode
  titleAnchor : Option TitleNode
  companyName : Option String
  companyTestid : Option String
  companyLocation : Option String
  locationTestid : Option String
  salarySnippet : Option String
  salaryTestid : Option String
  jobSnippet : Option String
  underShelfFooter : Option String
deriving Repr, DecidableEq

/-- Embeds `IndeedScraper.base_url`. -/
def base_url : String := "https://uk.indeed.com"

/-- Embeds `IndeedScraper.parse_job_listing`: extract a `JobData` from one job
card.  Returns `none` exactly on the `else: return None` branch, i.e.
when neither title selector matched.  `title_link` is
`title_elem.find('a') or title_elem`; a missing `href` becomes `""`
(`get('href', '')`), and a link starting with `/` is prefixed with
`base_url`.  Optional fields fall back to their defaults. -/
def parse_job_listing (e : JobElement) : Option JobData :=
  match e.titleH2 <|> e.titleAnchor with
  | none => none
  | some title_elem =>
    let title_link : LinkNode := title_elem.anchor.getD
      { text := title_elem.text, href := title_elem.href }
    let job_link : String := title_link.href.getD ""
    let url : String :=
      if job_link.startsWith "/" then base_url ++ job_link else job_link
    some
      { job_title := title_link.text
        job_board_url := url
        company := (e.companyName <|> e.companyTestid).getD "Unknown Company"
        location := (e.companyLocation <|> e.locationTestid).getD "Location not specified"
        salary_range := e.salarySnippet <|> e.salaryTestid
        description := (e.jobSnippet <|> e.underShelfFooter).getD ""
        job_board_source := "indeed"
        requirements := none }

/-- A rendered search-results page, abstracted to the three
`find_all` selector candidates `scrape_search_page` tries in order. -/
structure Page where
  job_seen_beacon : List JobElement
  cardOutline : List JobElement
  resultContent : List JobElement
deriving Repr, DecidableEq

/-- Embeds `IndeedScraper.scrape_search_page`: fetch and parse one results
page.  The whole body is wrapped in `try/except`, so a fetch fault
(navigation error, or the wait for `job_seen_beacon` timing out)
returns the empty list instead of raising.  Job cards come from the
first of three selectors that matches anything; cards whose parse
returns `None` are skipped. -/
def scrape_search_page (fetch : String → Except String Page) (url : String) :
    List JobData :=
  match fetch url with
  | .error _ => []
  | .ok soup =>
    let job_cards :=
      if soup.job_seen_beacon ≠ [] then soup.job_seen_beacon
      else if soup.cardOutline ≠ [] then soup.cardOutline
      else soup.resultContent
    job_cards.filterMap parse_job_listing

/-- A storage fault injected at one record's commit: `integrity` is an
`IntegrityError` (uniqueness conflict), `other` any other exception. -/
inductive DbFault
  | integrity
  | other
deriving Repr, DecidableEq

/-- Number of stored rows holding the given `job_board_url`. -/
def urlCount (db : List JobData) (u : String) : Nat :=
  db.countP (fun r => r.job_board_url == u)

/-- The urls of a list of records, in order. -/
def urlsOf (l : List JobData) : List String :=
  l.map (fun r => r.job_board_url)

/-- The per-record persistence loop of
`JobScraperService.scrape_and_save_indeed` (lines 67-93): for each
scraped record, query the store for an existing row with the same
`job_board_url`; if found count a duplicate and skip, else commit a
new row.  The commit consults the fault oracle at the record's index:
an `IntegrityError` rolls back and counts a duplicate, any other
exception rolls back and drops the record.  Returns the final store
and the `jobs_added` / `jobs_duplicate` counters. -/
def saveLoop (flt : Nat → Option DbFault) (jobs : List JobData)
    (db : List JobData) (i jobs_added jobs_duplicate : Nat) :
    List JobData × Nat × Nat :=
  match jobs with
  | [] => (db, jobs_added, jobs_duplicate)
  | job_data :: rest =>
    if db.any (fun r => r.job_board_url == job_data.job_board_url) then
      saveLoop flt rest db (i + 1) jobs_added (jobs_duplicate + 1)
    else
      match flt i with
      | some .integrity => saveLoop flt rest db (i + 1) jobs_added (jobs_duplicate + 1)
      | some .other => saveLoop flt rest db (i + 1) jobs_added jobs_duplicate
      | none => saveLoop flt rest (db ++ [job_data]) (i + 1) (jobs_added + 1) jobs_duplicate

/-- The persistence loop started with fresh counters. -/
def saveJobs (flt : Nat → Option DbFault) (jobs db : List JobData) :
    List JobData × Nat × Nat :=
  saveLoop flt jobs db 0 0 0

/-- The oracle of a storage backend that never faults on a commit the
prior existence check allowed (the sequential, single-writer case). -/
def noFault : Nat → Option DbFault := fun _ => none

/-- One `ScraperLog` row (`models.ScraperLog`).  The start timestamp is
a server-side column default and is omitted; `scrape_ended_at` is kept
as an option recording only whether the column was ever written. -/
structure ScraperLog where
  job_board : String
  scrape_ended_at : Option Unit
  jobs_found : Nat
  jobs_added : Nat
  status : String
  error_message : Option String
  search_keywords : String
  search_location : String
deriving Repr, DecidableEq

/-- The statistics dict returned by `scrape_and_save_indeed`. -/
structure RunSummary where
  jobs_found : Nat
  jobs_added : Nat
  jobs_duplicate : Nat
  status : String
  error : Option String
deriving Repr, DecidableEq

/-- The `ScraperLog` row created at the start of
`scrape_and_save_indeed`: status `running`, counts at their column
defaults, keyword/location lists joined with `", "`. -/
def initialLog (keywords locations : List String) : ScraperLog :=
  { job_board := "indeed"
    scrape_ended_at := none
    jobs_found := 0
    jobs_added := 0
    status := "running"
    error_message := none
    search_keywords := String.intercalate ", " keywords
    search_location := String.intercalate ", " locations }

/-- Embeds `JobScraperService.scrape_and_save_indeed`, from the point where
the log row exists: `scraped` is the outcome of the
`self.indeed_scraper.scrape` call (`Except.error` for a raised
exception).  On success the records are persisted through `saveLoop`,
the log gets its counts and status `completed`, and the returned dict
has status `success`.  On a scrape exception the log gets status
`failed` with the error message and the returned dict has status
`error` with zero counts.  Returns (summary, final log row, final
store). -/
def scrape_and_save_indeed (scraped : Except String (List JobData))
    (flt : Nat → Option DbFault) (keywords locations : List String)
    (db : List JobData) : RunSummary × ScraperLog × List JobData :=
  let scraper_log := initialLog keywords locations
  match scraped with
  | .ok jobs_scraped =>
    let res := saveJobs flt jobs_scraped db
    let log1 := { scraper_log with
      jobs_found := jobs_scraped.length
      jobs_added := res.2.1
      status := "completed" }
    ({ jobs_found := jobs_scraped.length
       jobs_added := res.2.1
       jobs_duplicate := res.2.2
       status := "success"
       error := none }, log1, res.1)
  | .error e =>
    let log1 := { scraper_log with status := "failed", error_message := some e }
    ({ jobs_found := 0
       jobs_added := 0
       jobs_duplicate := 0
       status := "error"
       error := some e }, log1, db)

/-- Python's `lst[:n]` for an `int` bound: a nonnegative bound takes a
prefix, a negative bound stops `|n|` elements before the end. -/
def pyslice {α : Type} (l : List α) (n : Int) : List α :=
  if 0 ≤ n then l.take n.toNat else l.take (l.length - (-n).toNat)

/-- The mutable state a scrape run threads along: the accumulated
records (`self.jobs_scraped`) plus the observable effect traces — the
(keyword, location) pair of every search request issued and of every
request after which `random_delay` ran. -/
structure ScrapeState where
  jobs_scraped : List JobData
  requests : List (String × String)
  delays : List (String × String)
deriving Repr, DecidableEq

/-- The empty scrape state (`self.jobs_scraped = []`, nothing issued). -/
def initState : ScrapeState := { jobs_scraped := [], requests := [], delays := [] }

namespace BaseScraper

/-- The inner `for location in locations` loop of `BaseScraper.scrape`.
`build` embeds the abstract `build_search_url`; `page` is the abstract
`scrape_search_page`, whose `Except.error` stands for a raised
exception, which propagates out of the loop carrying the state reached
so far.  Before each pair the cap is checked (`break`); after a
successful page the delay runs unless the current keyword equals
`keywords[-1]` and the current location equals `locations[-1]`. -/
def innerLoop (build : String → String → String)
    (page : String → Except String (List JobData))
    (keywords locations : List String) (keyword : String)
    (rest : List String) (max_jobs : Int) (st : ScrapeState) :
    Except (ScrapeState × String) ScrapeState :=
  match rest with
  | [] => .ok st
  | location :: ls =>
    if (st.jobs_scraped.length : Int) ≥ max_jobs then .ok st
    else
      let url := build keyword location
      let st1 := { st with requests := st.requests ++ [(keyword, location)] }
      match page url with
      | .error e => .error (st1, e)
      | .ok jobs =>
        let st2 := { st1 with jobs_scraped := st1.jobs_scraped ++ jobs }
        let st3 :=
          if keywords.getLast? != some keyword || locations.getLast? != some location then
            { st2 with delays := st2.delays ++ [(keyword, location)] }
          else st2
        innerLoop build page keywords locations keyword ls max_jobs st3

/-- The outer `for keyword in keywords` loop of `BaseScraper.scrape`:
run the inner loop, then re-check the cap (`break`). -/
def outerLoop (build : String → String → String)
    (page : String → Except String (List JobData))
    (keywords locations : List String) (rest : List String)
    (max_jobs : Int) (st : ScrapeState) :
    Except (ScrapeState × String) ScrapeState :=
  match rest with
  | [] => .ok st
  | keyword :: ks =>
    match innerLoop build page keywords locations keyword locations max_jobs st with
    | .error es => .error es
    | .ok st1 =>
      if (st1.jobs_scraped.length : Int) ≥ max_jobs then .ok st1
      else outerLoop build page keywords locations ks max_jobs st1

/-- The state `BaseScraper.scrape` holds after its `try/except/finally`:
the loop's exception, if any, was caught and logged, leaving the state
reached at the fault. -/
def scrapeRun (build : String → String → String)
    (page : String → Except String (List JobData))
    (keywords locations : List String) (max_jobs : Int) : ScrapeState :=
  match outerLoop build page keywords locations keywords max_jobs initState with
  | .ok st => st
  | .error (st, _) => st

/-- Embeds `BaseScraper.scrape`: run the keyword×location loop with every
exception caught, then `return self.jobs_scraped[:max_jobs]`. -/
def scrape (build : String → String → String)
    (page : String → Except String (List JobData))
    (keywords locations : List String) (max_jobs : Int) : List JobData :=
  pyslice (scrapeRun build page keywords locations max_jobs).jobs_scraped max_jobs

end BaseScraper

namespace IndeedScraper

/-- Embeds `IndeedScraper.build_search_url`, with `urllib.parse.quote_plus`
abstracted as the encoder `q`. -/
def build_search_url (q : String → String) (keywords location : String) : String :=
  base_url ++ "/jobs?q=" ++ q keywords ++ "&l=" ++ q location

/-- The inner `for location in locations` loop of the
`IndeedScraper.scrape` override: cap check, request, extend, then an
unconditional `random_delay()` after every pair.  `scrape_search_page`
is total, so the loop cannot fault. -/
def innerLoop (q : String → String) (fetch : String → Except String Page)
    (keyword : String) (rest : List String) (max_jobs : Int)
    (st : ScrapeState) : ScrapeState :=
  match rest with
  | [] => st
  | location :: ls =>
    if (st.jobs_scraped.length : Int) ≥ max_jobs then st
    else
      let url := build_search_url q keyword location
      let jobs := scrape_search_page fetch url
      let st1 : ScrapeState :=
        { jobs_scraped := st.jobs_scraped ++ jobs
          requests := st.requests ++ [(keyword, location)]
          delays := st.delays ++ [(keyword, location)] }
      innerLoop q fetch keyword ls max_jobs st1

/-- The outer `for keyword in keywords` loop of `IndeedScraper.scrape`. -/
def outerLoop (q : String → String) (fetch : String → Except String Page)
    (locations : List String) (rest : List String) (max_jobs : Int)
    (st : ScrapeState) : ScrapeState :=
  match rest with
  | [] => st
  | keyword :: ks =>
    let st1 := innerLoop q fetch keyword locations max_jobs st
    if (st1.jobs_scraped.length : Int) ≥ max_jobs then st1
    else outerLoop q fetch locations ks max_jobs st1

/-- The state reached by the `IndeedScraper.scrape` loops. -/
def scrapeRun (q : String → String) (fetch : String → Except String Page)
    (keywords locations : List String) (max_jobs : Int) : ScrapeState :=
  outerLoop q fetch locations keywords max_jobs initState

/-- Embeds `IndeedScraper.scrape`: the loops followed by
`return self.jobs_scraped[:max_jobs]` (the `finally` clause only
closes the browser session). -/
def scrape (q : String → String) (fetch : String → Except String Page)
    (keywords locations : List String) (max_jobs : Int) : List JobData :=
  pyslice (scrapeRun q fetch keywords locations max_jobs).jobs_scraped max_jobs

end IndeedScraper


/-- A concrete record used to instantiate theorems at explicit inputs. -/
def mkJob (u : String) : JobData :=
  { job_title := "t", job_board_url := u, company := "c", location := "l",
    salary_range := none, description := "", job_board_source := "indeed",
    requirements := none }

/-- A job element whose title node is present but carries no anchor
and no `href`, with no other selector matching. -/
def hrefLessElem : JobElement :=
  { titleH2 := some { text := "Engineer", href := none, anchor := none }
    titleAnchor := none, companyName := none, companyTestid := none
    companyLocation := none, locationTestid := none, salarySnippet := none
    salaryTestid := none, jobSnippet := none, underShelfFooter := none }

/-- A job element on which no selector matches at all. -/
def noneElem : JobElement :=
  { titleH2 := none, titleAnchor := none, companyName := none
    companyTestid := none, companyLocation := none, locationTestid := none
    salarySnippet := none, salaryTestid := none, jobSnippet := none
    underShelfFooter := none }

/-- A fetch oracle that always fails (timeout or navigation error). -/
def fetchFail : String → Except String Page := fun _ => .error "timeout"

/-- A search-url builder used to instantiate theorems concretely. -/
def build0 : String → String → String := fun k l => k ++ l

/-- A page oracle whose every page is empty. -/
def pages0 : String → List JobData := fun _ => []

/-- A page oracle for the base scraper that always raises. -/
def pageErr : String → Except String (List JobData) := fun _ => .error "boom"

lemma any_url_iff (db : List JobData) (u : String) :
    db.any (fun r => r.job_board_url == u) = true ↔ u ∈ urlsOf db := by
  simp [List.any_eq_true, urlsOf, List.mem_map, beq_iff_eq]

lemma urlCount_pos_iff (db : List JobData) (u : String) :
    0 < urlCount db u ↔ u ∈ urlsOf db := by
  simp [urlCount, List.countP_pos_iff, urlsOf, List.mem_map, beq_iff_eq]

lemma urlCount_append (db1 db2 : List JobData) (u : String) :
    urlCount (db1 ++ db2) u = urlCount db1 u + urlCount db2 u := by
  simp [urlCount, List.countP_append]

lemma urlCount_singleton (j : JobData) (u : String) :
    urlCount [j] u = if j.job_board_url = u then 1 else 0 := by
  by_cases h : j.job_board_url = u <;> simp [urlCount, List.countP_cons, h]

lemma saveLoop_count_preserved (flt : Nat → Option DbFault) (jobs : List JobData)
    (u : String) :
    ∀ db i a d, 0 < urlCount db u →
      urlCount (saveLoop flt jobs db i a d).1 u = urlCount db u := by
  induction jobs with
  | nil => intro db i a d _; simp [saveLoop]
  | cons j rest ih =>
    intro db i a d h
    cases hc : db.any (fun r => r.job_board_url == j.job_board_url) with
    | true =>
      simp only [saveLoop, hc, if_true]
      exact ih db _ _ _ h
    | false =>
      have hmem : u ∈ urlsOf db := (urlCount_pos_iff db u).mp h
      have hju : j.job_board_url ≠ u := by
        intro he
        have h2 : j.job_board_url ∈ urlsOf db := he ▸ hmem
        have h3 := (any_url_iff db j.job_board_url).mpr h2
        rw [hc] at h3
        exact Bool.false_ne_true h3
      have hkeep : urlCount (db ++ [j]) u = urlCount db u := by
        rw [urlCount_append, urlCount_singleton]
        simp [hju]
      cases hf : flt i with
      | none =>
        simp only [saveLoop, hc, Bool.false_eq_true, if_false, hf]
        rw [ih (db ++ [j]) _ _ _ (by rw [hkeep]; exact h), hkeep]
      | some f =>
        cases f <;>
          · simp only [saveLoop, hc, Bool.false_eq_true, if_false, hf]
            exact ih db _ _ _ h

lemma saveLoop_count_zero (flt : Nat → Option DbFault) (jobs : List JobData)
    (u : String) :
    ∀ db i a d, urlCount db u = 0 → u ∉ urlsOf jobs →
      urlCount (saveLoop flt jobs db i a d).1 u = 0 := by
  induction jobs with
  | nil => intro db i a d h _; simpa [saveLoop] using h
  | cons j rest ih =>
    intro db i a d h hu
    have hju : j.job_board_url ≠ u := by
      intro he; exact hu (by simp [urlsOf, he])
    have hrest : u ∉ urlsOf rest := by
      intro hr; exact hu (by simp [urlsOf] at hr ⊢; exact Or.inr hr)
    cases hc : db.any (fun r => r.job_board_url == j.job_board_url) with
    | true =>
      simp only [saveLoop, hc, if_true]
      exact ih db _ _ _ h hrest
    | false =>
      cases hf : flt i with
      | none =>
        simp only [saveLoop, hc, Bool.false_eq_true, if_false, hf]
        refine ih (db ++ [j]) _ _ _ ?_ hrest
        rw [urlCount_append, urlCount_singleton, h]
        simp [hju]
      | some f =>
        cases f <;>
          · simp only [saveLoop, hc, Bool.false_eq_true, if_false, hf]
            exact ih db _ _ _ h hrest

lemma saveLoop_count_created (jobs : List JobData) (u : String) :
    ∀ db i a d, urlCount db u = 0 → u ∈ urlsOf jobs →
      urlCount (saveLoop noFault jobs db i a d).1 u = 1 := by
  induction jobs with
  | nil => intro db i a d _ hu; simp [urlsOf] at hu
  | cons j rest ih =>
    intro db i a d h hu
    cases hc : db.any (fun r => r.job_board_url == j.job_board_url) with
    | true =>
      have hrest : u ∈ urlsOf rest := by
        rcases (by simpa [urlsOf] using hu :
            u = j.job_board_url ∨ ∃ a ∈ rest, a.job_board_url = u) with he | ⟨b, hb, hbu⟩
        · exfalso
          have h2 := (any_url_iff db j.job_board_url).mp hc
          rw [← he] at h2
          have := (urlCount_pos_iff db u).mpr h2
          omega
        · simp only [urlsOf, List.mem_map]
          exact ⟨b, hb, hbu⟩
      simp only [saveLoop, hc, if_true]
      exact ih db _ _ _ h hrest
    | false =>
      by_cases he : j.job_board_url = u
      · simp only [saveLoop, hc, Bool.false_eq_true, if_false, noFault]
        have hone : urlCount (db ++ [j]) u = 1 := by
          rw [urlCount_append, urlCount_singleton, h]
          simp [he]
        rw [saveLoop_count_preserved _ rest u (db ++ [j]) _ _ _ (by omega), hone]
      · have hrest : u ∈ urlsOf rest := by
          rcases (by simpa [urlsOf] using hu :
              u = j.job_board_url ∨ ∃ a ∈ rest, a.job_board_url = u) with h2 | ⟨b, hb, hbu⟩
          · exact absurd h2.symm he
          · simp only [urlsOf, List.mem_map]
            exact ⟨b, hb, hbu⟩
        simp only [saveLoop, hc, Bool.false_eq_true, if_false, noFault]
        refine ih (db ++ [j]) _ _ _ ?_ hrest
        rw [urlCount_append, urlCount_singleton, h]
        simp [he]

lemma saveLoop_count_le_one (flt : Nat → Option DbFault) (jobs : List JobData)
    (u : String) :
    ∀ db i a d, urlCount db u ≤ 1 →
      urlCount (saveLoop flt jobs db i a d).1 u ≤ 1 := by
  induction jobs with
  | nil => intro db i a d h; simpa [saveLoop] using h
  | cons j rest ih =>
    intro db i a d h
    cases hc : db.any (fun r => r.job_board_url == j.job_board_url) with
    | true =>
      simp only [saveLoop, hc, if_true]
      exact ih db _ _ _ h
    | false =>
      cases hf : flt i with
      | none =>
        simp only [saveLoop, hc, Bool.false_eq_true, if_false, hf]
        refine ih (db ++ [j]) _ _ _ ?_
        rw [urlCount_append, urlCount_singleton]
        by_cases he : j.job_board_url = u
        · have hz : urlCount db u = 0 := by
            by_contra hp
            have h2 := (urlCount_pos_iff db u).mp (by omega)
            have h3 := (any_url_iff db j.job_board_url).mpr (he ▸ h2)
            rw [hc] at h3
            exact Bool.false_ne_true h3
          simp [he, hz]
        · simp [he, h]
      | some f =>
        cases f <;>
          · simp only [saveLoop, hc, Bool.false_eq_true, if_false, hf]
            exact ih db _ _ _ h

lemma saveLoop_dup_count (jobs : List JobData) :
    ∀ db i a d, (urlsOf jobs).Nodup →
      (saveLoop noFault jobs db i a d).2.2
        = d + (jobs.filter
            (fun b => db.any (fun r => r.job_board_url == b.job_board_url))).length := by
  induction jobs with
  | nil => intro db i a d _; simp [saveLoop]
  | cons j rest ih =>
    intro db i a d hn
    have hn2 : (urlsOf rest).Nodup ∧ j.job_board_url ∉ urlsOf rest := by
      have : urlsOf (j :: rest) = j.job_board_url :: urlsOf rest := by simp [urlsOf]
      rw [this] at hn
      exact ⟨hn.of_cons, (List.nodup_cons.mp hn).1⟩
    cases hc : db.any (fun r => r.job_board_url == j.job_board_url) with
    | true =>
      simp only [saveLoop, hc, if_true]
      rw [ih db _ _ _ hn2.1]
      simp only [List.filter_cons, hc]
      simp
      omega
    | false =>
      simp only [saveLoop, hc, Bool.false_eq_true, if_false, noFault]
      rw [ih (db ++ [j]) _ _ _ hn2.1]
      have hfc : rest.filter
            (fun b => (db ++ [j]).any (fun r => r.job_board_url == b.job_board_url))
          = rest.filter
            (fun b => db.any (fun r => r.job_board_url == b.job_board_url)) := by
        refine List.filter_congr ?_
        intro b hb
        have hjb : j.job_board_url ≠ b.job_board_url := by
          intro he
          exact hn2.2 (he ▸ (by simp [urlsOf]; exact ⟨b, hb, rfl⟩))
        simp [List.any_append, List.any_cons, beq_iff_eq, hjb]
      rw [hfc]
      simp only [List.filter_cons, hc]
      simp

lemma urlCount_from_empty (A : List JobData) (u : String) :
    urlCount (saveJobs noFault A []).1 u = if u ∈ urlsOf A then 1 else 0 := by
  by_cases h : u ∈ urlsOf A
  · rw [saveJobs, saveLoop_count_created A u [] 0 0 0 (by simp [urlCount]) h]
    simp [h]
  · rw [saveJobs, saveLoop_count_zero noFault A u [] 0 0 0 (by simp [urlCount]) h]
    simp [h]

/-- C1: re-ingestion is idempotent.  For a first run over records `A`
starting from an empty store and a second run over records `B` (with
distinct urls), every url common to `A` and `B` still has exactly one
stored row after the second run and gains no new row during it, and
the second run's duplicate count is the number of `B`-records whose
url already appeared in `A` (the overlap size). -/
theorem c1_reingestion_idempotent (A B : List JobData)
    (hB : (urlsOf B).Nodup) :
    (∀ u, u ∈ urlsOf A → u ∈ urlsOf B →
        urlCount (saveJobs noFault B (saveJobs noFault A []).1).1 u = 1
      ∧ urlCount (saveJobs noFault B (saveJobs noFault A []).1).1 u
          = urlCount (saveJobs noFault A []).1 u)
    ∧ (saveJobs noFault B (saveJobs noFault A []).1).2.2
        = (B.filter (fun b => decide (b.job_board_url ∈ urlsOf A))).length := by
  constructor
  · intro u hA _
    have h1 : urlCount (saveJobs noFault A []).1 u = 1 := by
      rw [urlCount_from_empty]; simp [hA]
    have h2 : urlCount (saveJobs noFault B (saveJobs noFault A []).1).1 u
        = urlCount (saveJobs noFault A []).1 u := by
      rw [saveJobs]
      exact saveLoop_count_preserved noFault B u _ 0 0 0 (by omega)
    exact ⟨by rw [h2, h1], h2⟩
  · rw [saveJobs, saveLoop_dup_count B _ 0 0 0 hB]
    simp only [Nat.zero_add]
    congr 1
    refine List.filter_congr ?_
    intro b _
    have hiff : (saveJobs noFault A []).1.any
          (fun r => r.job_board_url == b.job_board_url) = true
        ↔ b.job_board_url ∈ urlsOf A := by
      rw [any_url_iff]
      constructor
      · intro h
        have hp := (urlCount_pos_iff _ _).mpr h
        rw [urlCount_from_empty] at hp
        by_contra hn
        simp [hn] at hp
      · intro h
        refine (urlCount_pos_iff _ _).mp ?_
        rw [urlCount_from_empty]
        simp [h]
    cases hd : (saveJobs noFault A []).1.any
        (fun r => r.job_board_url == b.job_board_url) with
    | true => simp [hiff.mp hd]
    | false =>
      have : b.job_board_url ∉ urlsOf A := fun hm => by
        rw [hiff.mpr hm] at hd
        simp at hd
      simp [this]

/-- C1 witness: a concrete pair of runs, `A` with urls a,b then `B`
with urls a,c, overlap of size one. -/
theorem c1_reingestion_idempotent_witness :
    ((urlsOf [mkJob "a", mkJob "c"]).Nodup)
    ∧ ((∀ u, u ∈ urlsOf [mkJob "a", mkJob "b"] → u ∈ urlsOf [mkJob "a", mkJob "c"] →
          urlCount (saveJobs noFault [mkJob "a", mkJob "c"]
              (saveJobs noFault [mkJob "a", mkJob "b"] []).1).1 u = 1
        ∧ urlCount (saveJobs noFault [mkJob "a", mkJob "c"]
              (saveJobs noFault [mkJob "a", mkJob "b"] []).1).1 u
            = urlCount (saveJobs noFault [mkJob "a", mkJob "b"] []).1 u)
      ∧ (saveJobs noFault [mkJob "a", mkJob "c"]
            (saveJobs noFault [mkJob "a", mkJob "b"] []).1).2.2
          = ([mkJob "a", mkJob "c"].filter
              (fun b => decide (b.job_board_url ∈ urlsOf [mkJob "a", mkJob "b"]))).length) :=
  ⟨by decide,
   c1_reingestion_idempotent [mkJob "a", mkJob "b"] [mkJob "a", mkJob "c"] (by decide)⟩

/-- C10: a listing whose title element is present but whose link has no
`href` parses to a record (not `None`) whose `job_board_url` is `""`;
and since the service inserts a url only when no stored row has it,
a store holding at most one row with url `""` still holds at most one
after any run, whatever storage faults occur. -/
theorem c10_missing_href_empty_url :
    (∀ (e : JobElement) (t : TitleNode),
        (e.titleH2 <|> e.titleAnchor) = some t → t.anchor = none → t.href = none →
        ∃ jd, parse_job_listing e = some jd ∧ jd.job_board_url = "")
    ∧ (∀ (flt : Nat → Option DbFault) (jobs db : List JobData),
        urlCount db "" ≤ 1 → urlCount (saveJobs flt jobs db).1 "" ≤ 1) := by
  constructor
  · intro e t ht ha hh
    refine ⟨{ job_title := t.text
              job_board_url := ""
              company := (e.companyName <|> e.companyTestid).getD "Unknown Company"
              location := (e.companyLocation <|> e.locationTestid).getD "Location not specified"
              salary_range := e.salarySnippet <|> e.salaryTestid
              description := (e.jobSnippet <|> e.underShelfFooter).getD ""
              job_board_source := "indeed"
              requirements := none }, ?_, rfl⟩
    simp only [parse_job_listing, ht, ha, hh]
    rfl
  · intro flt jobs db h
    exact saveLoop_count_le_one flt jobs "" db 0 0 0 h

/-- C10 witness: the concrete href-less element parses to url `""`,
and persisting into an empty store keeps at most one `""` row. -/
theorem c10_missing_href_empty_url_witness :
    ((hrefLessElem.titleH2 <|> hrefLessElem.titleAnchor)
        = some { text := "Engineer", href := none, anchor := none }
      ∧ urlCount ([] : List JobData) "" ≤ 1)
    ∧ ((∃ jd, parse_job_listing hrefLessElem = some jd ∧ jd.job_board_url = "")
      ∧ urlCount (saveJobs noFault [mkJob "", mkJob ""] []).1 "" ≤ 1) :=
  ⟨⟨rfl, by decide⟩,
   (c10_missing_href_empty_url.1 hrefLessElem _ rfl rfl rfl),
   (c10_missing_href_empty_url.2 noFault [mkJob "", mkJob ""] [] (by decide))⟩

/-- C2 counterexample: a normally returning invocation (scrape
succeeded with zero records) finalizes the log row with terminal
status `completed` while `scrape_ended_at` is still unset — the end
timestamp and the terminal status are not set together, because the
code never writes `scrape_ended_at`. -/
theorem c2_counterexample :
    (scrape_and_save_indeed (.ok []) noFault ["graduate engineer"] ["London"] []).2.1.status
      = "completed"
    ∧ (scrape_and_save_indeed (.ok []) noFault ["graduate engineer"] ["London"]
        []).2.1.scrape_ended_at = none := ⟨rfl, rfl⟩

/-- C2 amended: on every invocation that returns, the log row carries a
terminal status (`completed` or `failed`), never `running` — but its
end timestamp is never set. -/
theorem c2_terminal_status_no_end_timestamp (scraped : Except String (List JobData))
    (flt : Nat → Option DbFault) (keywords locations : List String)
    (db : List JobData) :
    ((scrape_and_save_indeed scraped flt keywords locations db).2.1.status = "completed"
      ∨ (scrape_and_save_indeed scraped flt keywords locations db).2.1.status = "failed")
    ∧ (scrape_and_save_indeed scraped flt keywords locations db).2.1.status ≠ "running"
    ∧ (scrape_and_save_indeed scraped flt keywords locations db).2.1.scrape_ended_at
        = none := by
  cases scraped with
  | ok jobs =>
    exact ⟨Or.inl rfl, (by decide : ("completed" : String) ≠ "running"), rfl⟩
  | error e =>
    exact ⟨Or.inr rfl, (by decide : ("failed" : String) ≠ "running"), rfl⟩

/-- C3 counterexample: on a successful run the returned summary's
status field is `"success"`, not `"completed"` as claimed (the
`completed`/`failed` values go to the log row; the summary dict uses
`success`/`error`). -/
theorem c3_counterexample :
    (scrape_and_save_indeed (.ok []) noFault ["graduate engineer"] ["London"] []).1.status
      = "success"
    ∧ (scrape_and_save_indeed (.ok []) noFault ["graduate engineer"] ["London"] []).1.status
      ≠ "completed" := ⟨rfl, by decide⟩

/-- C3 amended: every invocation returns a structured summary with
found/added/duplicate counts and a status — `"success"` with the run's
counts when the scrape succeeded, `"error"` with the error detail and
zero counts when it faulted — and it returns such a summary for every
scrape outcome and every per-record storage-fault pattern (fetch
faults, extraction faults, duplicate conflicts and single-record
persistence faults are absorbed below it, never raised). -/
theorem c3_structured_summary (scraped : Except String (List JobData))
    (flt : Nat → Option DbFault) (keywords locations : List String)
    (db : List JobData) :
    (∀ jobs, scraped = .ok jobs →
      (scrape_and_save_indeed scraped flt keywords locations db).1
        = { jobs_found := jobs.length
            jobs_added := (saveJobs flt jobs db).2.1
            jobs_duplicate := (saveJobs flt jobs db).2.2
            status := "success"
            error := none })
    ∧ (∀ e, scraped = .error e →
      (scrape_and_save_indeed scraped flt keywords locations db).1
        = { jobs_found := 0
            jobs_added := 0
            jobs_duplicate := 0
            status := "error"
            error := some e }) := by
  constructor
  · intro jobs h
    subst h
    rfl
  · intro e h
    subst h
    rfl

/-- C3 witness: the amended summary shape at a concrete successful and
a concrete failed invocation. -/
theorem c3_structured_summary_witness :
    ((Except.ok [mkJob "a"] : Except String (List JobData)) = .ok [mkJob "a"]
      ∧ (Except.error "boom" : Except String (List JobData)) = .error "boom")
    ∧ ((scrape_and_save_indeed (.ok [mkJob "a"]) noFault [] [] []).1
        = { jobs_found := 1
            jobs_added := (saveJobs noFault [mkJob "a"] []).2.1
            jobs_duplicate := (saveJobs noFault [mkJob "a"] []).2.2
            status := "success"
            error := none }
      ∧ (scrape_and_save_indeed (.error "boom") noFault [] [] []).1
        = { jobs_found := 0
            jobs_added := 0
            jobs_duplicate := 0
            status := "error"
            error := some "boom" }) :=
  ⟨⟨rfl, rfl⟩,
   (c3_structured_summary (.ok [mkJob "a"]) noFault [] [] []).1 [mkJob "a"] rfl,
   (c3_structured_summary (.error "boom") noFault [] [] []).2 "boom" rfl⟩

/-- C6 counterexample: a listing whose title is present but whose link
carries no `href` — the claim says the parse returns null (link
missing) with organization default `"Unknown"`, but the code returns a
record with `job_board_url = ""` and the organization default is
`"Unknown Company"`. -/
theorem c6_counterexample :
    parse_job_listing hrefLessElem ≠ none
    ∧ (parse_job_listing hrefLessElem).map (fun jd => jd.job_board_url) = some ""
    ∧ (parse_job_listing hrefLessElem).map (fun jd => jd.company) = some "Unknown Company"
    ∧ ("Unknown Company" : String) ≠ "Unknown" := by decide

/-- C6 amended: `parse_job_listing` returns `none` exactly when neither
title selector matches (a missing link alone never yields `none`);
otherwise it returns a record whose missing optional fields get the
defaults `"Unknown Company"`, `"Location not specified"`, `none` and
`""`, whose title link is the inner anchor when present (else the
title element itself), whose missing `href` becomes the empty-string
url, and whose relative (slash-initial) `href` is resolved against
`base_url`. -/
theorem c6_parse_listing (e : JobElement) :
    (parse_job_listing e = none ↔ e.titleH2 = none ∧ e.titleAnchor = none)
    ∧ (∀ t, (e.titleH2 <|> e.titleAnchor) = some t →
        ∃ jd, parse_job_listing e = some jd
          ∧ jd.job_title = (t.anchor.getD { text := t.text, href := t.href }).text
          ∧ (e.companyName = none → e.companyTestid = none →
              jd.company = "Unknown Company")
          ∧ (e.companyLocation = none → e.locationTestid = none →
              jd.location = "Location not specified")
          ∧ (e.salarySnippet = none → e.salaryTestid = none →
              jd.salary_range = none)
          ∧ (e.jobSnippet = none → e.underShelfFooter = none →
              jd.description = "")
          ∧ ((t.anchor.getD { text := t.text, href := t.href }).href = none →
              jd.job_board_url = "")
          ∧ (∀ h, (t.anchor.getD { text := t.text, href := t.href }).href = some h →
              jd.job_board_url
                = if h.startsWith "/" then base_url ++ h else h)) := by
  constructor
  · cases h2 : e.titleH2 with
    | some t => simp [parse_job_listing, h2]
    | none =>
      cases ha : e.titleAnchor with
      | some t => simp [parse_job_listing, h2, ha]
      | none => simp [parse_job_listing, h2, ha]
  · intro t ht
    refine ⟨{ job_title := (t.anchor.getD { text := t.text, href := t.href }).text
              job_board_url :=
                if ((t.anchor.getD { text := t.text, href := t.href }).href.getD
                    "").startsWith "/"
                then base_url
                  ++ (t.anchor.getD { text := t.text, href := t.href }).href.getD ""
                else (t.anchor.getD { text := t.text, href := t.href }).href.getD ""
              company := (e.companyName <|> e.companyTestid).getD "Unknown Company"
              location := (e.companyLocation <|> e.locationTestid).getD "Location not specified"
              salary_range := e.salarySnippet <|> e.salaryTestid
              description := (e.jobSnippet <|> e.underShelfFooter).getD ""
              job_board_source := "indeed"
              requirements := none }, ?_, rfl, ?_, ?_, ?_, ?_, ?_, ?_⟩
    · simp only [parse_job_listing, ht]
    · intro h1 h2; simp [h1, h2]
    · intro h1 h2; simp [h1, h2]
    · intro h1 h2; simp [h1, h2]
    · intro h1 h2; simp [h1, h2]
    · intro hn; simp only [hn, Option.getD_none]; rfl
    · intro h hl; simp only [hl, Option.getD_some]

/-- C6 witness: the all-missing element parses to `none` through the
amended characterization. -/
theorem c6_parse_listing_witness :
    (noneElem.titleH2 = none ∧ noneElem.titleAnchor = none)
    ∧ parse_job_listing noneElem = none :=
  ⟨⟨rfl, rfl⟩, (c6_parse_listing noneElem).1.mpr ⟨rfl, rfl⟩⟩

/-- C8: a page-level fetch failure (timeout waiting for the readiness
selector, or navigation error) makes `scrape_search_page` return the
empty list instead of raising; and a run whose scrape returned
normally still finalizes its log row with status `completed`,
whatever the pages contained. -/
theorem c8_fetch_failure_empty_list (fetch : String → Except String Page)
    (url e : String) (hf : fetch url = .error e) :
    scrape_search_page fetch url = []
    ∧ (∀ (flt : Nat → Option DbFault) (q : String → String)
        (keywords locations : List String) (max_jobs : Int) (db : List JobData),
        (scrape_and_save_indeed
            (.ok (IndeedScraper.scrape q fetch keywords locations max_jobs))
            flt keywords locations db).2.1.status = "completed") := by
  constructor
  · simp [scrape_search_page, hf]
  · intro flt q keywords locations max_jobs db
    rfl

/-- C8 witness: the always-failing fetch yields an empty page result
and a `completed` run at concrete inputs. -/
theorem c8_fetch_failure_empty_list_witness :
    (fetchFail "https://uk.indeed.com/jobs?q=x&l=y" = .error "timeout")
    ∧ scrape_search_page fetchFail "https://uk.indeed.com/jobs?q=x&l=y" = []
    ∧ (scrape_and_save_indeed
        (.ok (IndeedScraper.scrape id fetchFail ["x"] ["y"] 5))
        noFault ["x"] ["y"] []).2.1.status = "completed" :=
  ⟨rfl,
   (c8_fetch_failure_empty_list fetchFail "https://uk.indeed.com/jobs?q=x&l=y" "timeout" rfl).1,
   (c8_fetch_failure_empty_list fetchFail "https://uk.indeed.com/jobs?q=x&l=y" "timeout" rfl).2
     noFault id ["x"] ["y"] 5 []⟩

lemma pyslice_nil {α : Type} (n : Int) : pyslice ([] : List α) n = [] := by
  simp [pyslice]

lemma pyslice_length_le {α : Type} (l : List α) (n : Int) (h : 0 ≤ n) :
    ((pyslice l n).length : Int) ≤ n := by
  rw [pyslice, if_pos h]
  calc ((l.take n.toNat).length : Int) ≤ (n.toNat : Int) := by
        exact_mod_cast List.length_take_le n.toNat l
    _ = n := Int.toNat_of_nonneg h

lemma base_innerLoop_capped (build : String → String → String)
    (page : String → Except String (List JobData))
    (keywords locations : List String) (keyword : String) (rest : List String)
    (max_jobs : Int) (st : ScrapeState)
    (h : (st.jobs_scraped.length : Int) ≥ max_jobs) :
    BaseScraper.innerLoop build page keywords locations keyword rest max_jobs st
      = .ok st := by
  cases rest with
  | nil => rfl
  | cons l ls => rw [BaseScraper.innerLoop, if_pos h]

lemma base_outerLoop_capped (build : String → String → String)
    (page : String → Except String (List JobData))
    (keywords locations : List String) (rest : List String)
    (max_jobs : Int) (st : ScrapeState)
    (h : (st.jobs_scraped.length : Int) ≥ max_jobs) :
    BaseScraper.outerLoop build page keywords locations rest max_jobs st
      = .ok st := by
  cases rest with
  | nil => rfl
  | cons k ks =>
    rw [BaseScraper.outerLoop, base_innerLoop_capped _ _ _ _ _ _ _ _ h]
    exact if_pos h

lemma indeed_innerLoop_capped (q : String → String)
    (fetch : String → Except String Page) (keyword : String)
    (rest : List String) (max_jobs : Int) (st : ScrapeState)
    (h : (st.jobs_scraped.length : Int) ≥ max_jobs) :
    IndeedScraper.innerLoop q fetch keyword rest max_jobs st = st := by
  cases rest with
  | nil => rfl
  | cons l ls => rw [IndeedScraper.innerLoop, if_pos h]

lemma indeed_outerLoop_capped (q : String → String)
    (fetch : String → Except String Page) (locations : List String)
    (rest : List String) (max_jobs : Int) (st : ScrapeState)
    (h : (st.jobs_scraped.length : Int) ≥ max_jobs) :
    IndeedScraper.outerLoop q fetch locations rest max_jobs st = st := by
  cases rest with
  | nil => rfl
  | cons k ks =>
    rw [IndeedScraper.outerLoop,
      indeed_innerLoop_capped q fetch k locations max_jobs st h]
    exact if_pos h

/-- C4: the returned listing count never exceeds `max(max_jobs, 0)`,
for every page oracle, in both the base-class orchestrator and the
Indeed override; and a non-positive `max_jobs` yields the empty result
immediately. -/
theorem c4_max_jobs_cap (build : String → String → String)
    (page : String → Except String (List JobData)) (q : String → String)
    (fetch : String → Except String Page)
    (keywords locations : List String) (max_jobs : Int) :
    ((BaseScraper.scrape build page keywords locations max_jobs).length : Int)
        ≤ max max_jobs 0
    ∧ ((IndeedScraper.scrape q fetch keywords locations max_jobs).length : Int)
        ≤ max max_jobs 0
    ∧ (max_jobs ≤ 0 →
        BaseScraper.scrape build page keywords locations max_jobs = []
        ∧ IndeedScraper.scrape q fetch keywords locations max_jobs = []) := by
  have hbase0 : max_jobs ≤ 0 →
      BaseScraper.scrape build page keywords locations max_jobs = [] := by
    intro h0
    rw [BaseScraper.scrape, BaseScraper.scrapeRun,
      base_outerLoop_capped _ _ _ _ _ _ _ (by simp [initState]; omega)]
    exact pyslice_nil max_jobs
  have hindeed0 : max_jobs ≤ 0 →
      IndeedScraper.scrape q fetch keywords locations max_jobs = [] := by
    intro h0
    rw [IndeedScraper.scrape, IndeedScraper.scrapeRun,
      indeed_outerLoop_capped _ _ _ _ _ _ (by simp [initState]; omega)]
    exact pyslice_nil max_jobs
  refine ⟨?_, ?_, fun h0 => ⟨hbase0 h0, hindeed0 h0⟩⟩
  · by_cases h : 0 ≤ max_jobs
    · calc ((BaseScraper.scrape build page keywords locations max_jobs).length : Int)
          ≤ max_jobs := pyslice_length_le _ _ h
        _ ≤ max max_jobs 0 := le_max_left _ _
    · rw [hbase0 (by omega)]
      simp
  · by_cases h : 0 ≤ max_jobs
    · calc ((IndeedScraper.scrape q fetch keywords locations max_jobs).length : Int)
          ≤ max_jobs := pyslice_length_le _ _ h
        _ ≤ max max_jobs 0 := le_max_left _ _
    · rw [hindeed0 (by omega)]
      simp

/-- C4 witness: at `max_jobs = -1` both orchestrators return no
listings even though a page contains one. -/
theorem c4_max_jobs_cap_witness :
    ((-1 : Int) ≤ 0)
    ∧ (BaseScraper.scrape (fun k l => k ++ l) (fun u => .ok [mkJob u])
          ["a"] ["b"] (-1) = []
      ∧ IndeedScraper.scrape id fetchFail ["a"] ["b"] (-1) = []) :=
  ⟨by decide,
   (c4_max_jobs_cap (fun k l => k ++ l) (fun u => .ok [mkJob u]) id fetchFail
      ["a"] ["b"] (-1)).2.2 (by decide)⟩

lemma base_innerLoop_all (build : String → String → String)
    (pages : String → List JobData) (keywords locations : List String)
    (keyword : String) :
    ∀ (rest : List String) (st : ScrapeState) (max_jobs : Int),
      ((st.jobs_scraped.length : Int)
          + ((rest.map fun l => (pages (build keyword l)).length).sum : Int)
        < max_jobs) →
      BaseScraper.innerLoop build (fun u => .ok (pages u)) keywords locations
          keyword rest max_jobs st
        = .ok
          { jobs_scraped :=
              st.jobs_scraped ++ rest.bind (fun l => pages (build keyword l))
            requests := st.requests ++ rest.map (fun l => (keyword, l))
            delays := st.delays ++ (rest.filter (fun l =>
                keywords.getLast? != some keyword
                  || locations.getLast? != some l)).map (fun l => (keyword, l)) } := by
  intro rest
  induction rest with
  | nil =>
    intro st max_jobs _
    simp [BaseScraper.innerLoop]
  | cons l ls ih =>
    intro st max_jobs h
    simp only [List.map_cons, List.sum_cons] at h
    rw [BaseScraper.innerLoop,
      if_neg (show ¬((st.jobs_scraped.length : Int) ≥ max_jobs) by omega)]
    cases hc : (keywords.getLast? != some keyword || locations.getLast? != some l) with
    | true =>
      simp only [hc, if_true]
      rw [ih _ max_jobs (by simp only [List.length_append]; omega)]
      simp [List.append_assoc, List.filter_cons, hc, List.cons_bind]
    | false =>
      simp only [hc, Bool.false_eq_true, if_false]
      rw [ih _ max_jobs (by simp only [List.length_append]; omega)]
      simp [List.append_assoc, List.filter_cons, hc, List.cons_bind]

lemma base_outerLoop_all (build : String → String → String)
    (pages : String → List JobData) (keywords locations : List String) :
    ∀ (rest : List String) (st : ScrapeState) (max_jobs : Int),
      ((st.jobs_scraped.length : Int)
          + ((rest.map fun k =>
              ((locations.map fun l => (pages (build k l)).length).sum)).sum : Int)
        < max_jobs) →
      BaseScraper.outerLoop build (fun u => .ok (pages u)) keywords locations
          rest max_jobs st
        = .ok
          { jobs_scraped := st.jobs_scraped
              ++ rest.bind (fun k => locations.bind (fun l => pages (build k l)))
            requests := st.requests
              ++ rest.bind (fun k => locations.map (fun l => (k, l)))
            delays := st.delays ++ rest.bind (fun k =>
                (locations.filter (fun l =>
                    keywords.getLast? != some k
                      || locations.getLast? != some l)).map (fun l => (k, l))) } := by
  intro rest
  induction rest with
  | nil =>
    intro st max_jobs _
    simp [BaseScraper.outerLoop]
  | cons k ks ih =>
    intro st max_jobs h
    simp only [List.map_cons, List.sum_cons] at h
    rw [BaseScraper.outerLoop,
      base_innerLoop_all build pages keywords locations k locations st
        max_jobs (by omega)]
    have hlen : ((st.jobs_scraped
          ++ locations.bind (fun l => pages (build k l))).length : Int)
        = (st.jobs_scraped.length : Int)
          + ((locations.map fun l => (pages (build k l)).length).sum : Int) := by
      simp only [List.length_append, List.length_bind, Function.comp_def]
      push_cast
      ring
    dsimp only
    rw [if_neg (by rw [hlen]; omega)]
    rw [ih _ max_jobs (by simp only [List.length_append, List.length_bind,
      Function.comp_def]; omega)]
    simp [List.append_assoc, List.cons_bind]

lemma indeed_innerLoop_all (q : String → String)
    (fetch : String → Except String Page) (keyword : String) :
    ∀ (rest : List String) (st : ScrapeState) (max_jobs : Int),
      ((st.jobs_scraped.length : Int)
          + ((rest.map fun l => (scrape_search_page fetch
              (IndeedScraper.build_search_url q keyword l)).length).sum : Int)
        < max_jobs) →
      IndeedScraper.innerLoop q fetch keyword rest max_jobs st
        = { jobs_scraped := st.jobs_scraped
              ++ rest.bind (fun l => scrape_search_page fetch
                  (IndeedScraper.build_search_url q keyword l))
            requests := st.requests ++ rest.map (fun l => (keyword, l))
            delays := st.delays ++ rest.map (fun l => (keyword, l)) } := by
  intro rest
  induction rest with
  | nil =>
    intro st max_jobs _
    simp [IndeedScraper.innerLoop]
  | cons l ls ih =>
    intro st max_jobs h
    simp only [List.map_cons, List.sum_cons] at h
    rw [IndeedScraper.innerLoop,
      if_neg (show ¬((st.jobs_scraped.length : Int) ≥ max_jobs) by omega)]
    rw [ih _ max_jobs (by simp only [List.length_append]; omega)]
    simp [List.append_assoc, List.cons_bind]

lemma indeed_outerLoop_all (q : String → String)
    (fetch : String → Except String Page) (locations : List String) :
    ∀ (rest : List String) (st : ScrapeState) (max_jobs : Int),
      ((st.jobs_scraped.length : Int)
          + ((rest.map fun k =>
              ((locations.map fun l => (scrape_search_page fetch
                  (IndeedScraper.build_search_url q k l)).length).sum)).sum : Int)
        < max_jobs) →
      IndeedScraper.outerLoop q fetch locations rest max_jobs st
        = { jobs_scraped := st.jobs_scraped
              ++ rest.bind (fun k => locations.bind (fun l => scrape_search_page fetch
                  (IndeedScraper.build_search_url q k l)))
            requests := st.requests
              ++ rest.bind (fun k => locations.map (fun l => (k, l)))
            delays := st.delays
              ++ rest.bind (fun k => locations.map (fun l => (k, l))) } := by
  intro rest
  induction rest with
  | nil =>
    intro st max_jobs _
    simp [IndeedScraper.outerLoop]
  | cons k ks ih =>
    intro st max_jobs h
    simp only [List.map_cons, List.sum_cons] at h
    rw [IndeedScraper.outerLoop,
      indeed_innerLoop_all q fetch k locations st max_jobs (by omega)]
    have hlen : ((st.jobs_scraped
          ++ locations.bind (fun l => scrape_search_page fetch
              (IndeedScraper.build_search_url q k l))).length : Int)
        = (st.jobs_scraped.length : Int)
          + ((locations.map fun l => (scrape_search_page fetch
              (IndeedScraper.build_search_url q k l)).length).sum : Int) := by
      simp only [List.length_append, List.length_bind, Function.comp_def]
      push_cast
      ring
    dsimp only
    rw [if_neg (by rw [hlen]; omega)]
    rw [ih _ max_jobs (by simp only [List.length_append, List.length_bind,
      Function.comp_def]; omega)]
    simp [List.append_assoc, List.cons_bind]

lemma sum_map_const {α : Type} (L : List α) (n : Nat) :
    (L.map (fun _ => n)).sum = L.length * n := by
  induction L with
  | nil => simp
  | cons a as ih => simp [ih, Nat.succ_mul]; omega

/-- C5: when no page faults and the item cap is never reached (the
total number of extracted listings stays below `max_jobs`), both
orchestrators issue exactly one base search request per
(keyword, location) pair, `|K| × |L|` in all, in keyword-major,
location-minor order. -/
theorem c5_cross_product_requests :
    (∀ (build : String → String → String) (pages : String → List JobData)
        (keywords locations : List String) (max_jobs : Int),
      (((keywords.map fun k =>
          ((locations.map fun l => (pages (build k l)).length).sum)).sum : Int)
        < max_jobs) →
      (BaseScraper.scrapeRun build (fun u => .ok (pages u)) keywords locations
          max_jobs).requests
        = keywords.bind (fun k => locations.map (fun l => (k, l)))
      ∧ (BaseScraper.scrapeRun build (fun u => .ok (pages u)) keywords locations
          max_jobs).requests.length = keywords.length * locations.length)
    ∧ (∀ (q : String → String) (fetch : String → Except String Page)
        (keywords locations : List String) (max_jobs : Int),
      (((keywords.map fun k =>
          ((locations.map fun l => (scrape_search_page fetch
              (IndeedScraper.build_search_url q k l)).length).sum)).sum : Int)
        < max_jobs) →
      (IndeedScraper.scrapeRun q fetch keywords locations max_jobs).requests
        = keywords.bind (fun k => locations.map (fun l => (k, l)))
      ∧ (IndeedScraper.scrapeRun q fetch keywords locations
          max_jobs).requests.length = keywords.length * locations.length) := by
  constructor
  · intro build pages keywords locations max_jobs h
    have hrun : (BaseScraper.scrapeRun build (fun u => .ok (pages u)) keywords
          locations max_jobs).requests
        = keywords.bind (fun k => locations.map (fun l => (k, l))) := by
      rw [BaseScraper.scrapeRun,
        base_outerLoop_all build pages keywords locations keywords
          initState max_jobs (by simpa [initState] using h)]
      simp [initState]
    refine ⟨hrun, ?_⟩
    rw [hrun]
    simp only [List.length_bind, Function.comp_def, List.length_map]
    exact sum_map_const keywords locations.length
  · intro q fetch keywords locations max_jobs h
    have hrun : (IndeedScraper.scrapeRun q fetch keywords locations
          max_jobs).requests
        = keywords.bind (fun k => locations.map (fun l => (k, l))) := by
      rw [IndeedScraper.scrapeRun,
        indeed_outerLoop_all q fetch locations keywords initState
          max_jobs (by simpa [initState] using h)]
      simp [initState]
    refine ⟨hrun, ?_⟩
    rw [hrun]
    simp only [List.length_bind, Function.comp_def, List.length_map]
    exact sum_map_const keywords locations.length

/-- C5 witness: two keywords and one location with empty pages give the
two requests of the cross product in keyword-major order. -/
theorem c5_cross_product_requests_witness :
    ((List.sum (List.map (fun k => List.sum (List.map
        (fun l => (pages0 (build0 k l)).length) ["c"])) ["a", "b"]) : Int) < 50)
    ∧ ((BaseScraper.scrapeRun build0 (fun u => .ok (pages0 u)) ["a", "b"] ["c"]
          50).requests
        = ["a", "b"].bind (fun k => ["c"].map (fun l => (k, l)))
      ∧ (BaseScraper.scrapeRun build0 (fun u => .ok (pages0 u)) ["a", "b"] ["c"]
          50).requests.length = ["a", "b"].length * ["c"].length) :=
  ⟨by decide,
   (c5_cross_product_requests.1 build0 pages0 ["a", "b"] ["c"] 50) (by decide)⟩

lemma indeed_innerLoop_delays (q : String → String)
    (fetch : String → Except String Page) (keyword : String) :
    ∀ (rest : List String) (max_jobs : Int) (st : ScrapeState),
      st.delays = st.requests →
      (IndeedScraper.innerLoop q fetch keyword rest max_jobs st).delays
        = (IndeedScraper.innerLoop q fetch keyword rest max_jobs st).requests := by
  intro rest
  induction rest with
  | nil => intro max_jobs st h; simpa [IndeedScraper.innerLoop] using h
  | cons l ls ih =>
    intro max_jobs st h
    rw [IndeedScraper.innerLoop]
    by_cases hc : (st.jobs_scraped.length : Int) ≥ max_jobs
    · rw [if_pos hc]; exact h
    · rw [if_neg hc]
      exact ih max_jobs _ (by simp [h])

lemma indeed_outerLoop_delays (q : String → String)
    (fetch : String → Except String Page) (locations : List String) :
    ∀ (rest : List String) (max_jobs : Int) (st : ScrapeState),
      st.delays = st.requests →
      (IndeedScraper.outerLoop q fetch locations rest max_jobs st).delays
        = (IndeedScraper.outerLoop q fetch locations rest max_jobs st).requests := by
  intro rest
  induction rest with
  | nil => intro max_jobs st h; simpa [IndeedScraper.outerLoop] using h
  | cons k ks ih =>
    intro max_jobs st h
    rw [IndeedScraper.outerLoop]
    have hinner := indeed_innerLoop_delays q fetch k locations max_jobs st h
    by_cases hc : ((IndeedScraper.innerLoop q fetch k locations max_jobs
        st).jobs_scraped.length : Int) ≥ max_jobs
    · rw [if_pos hc]; exact hinner
    · rw [if_neg hc]
      exact ih max_jobs _ hinner

lemma base_innerLoop_delays (build : String → String → String)
    (pages : String → List JobData) (keywords locations : List String)
    (keyword : String) :
    ∀ (rest : List String) (max_jobs : Int) (st : ScrapeState),
      st.delays = st.requests.filter (fun p =>
          keywords.getLast? != some p.1 || locations.getLast? != some p.2) →
      ∃ st2, BaseScraper.innerLoop build (fun u => .ok (pages u)) keywords
            locations keyword rest max_jobs st = .ok st2
        ∧ st2.delays = st2.requests.filter (fun p =>
            keywords.getLast? != some p.1 || locations.getLast? != some p.2) := by
  intro rest
  induction rest with
  | nil => intro max_jobs st h; exact ⟨st, rfl, h⟩
  | cons l ls ih =>
    intro max_jobs st h
    rw [BaseScraper.innerLoop]
    by_cases hc : (st.jobs_scraped.length : Int) ≥ max_jobs
    · rw [if_pos hc]; exact ⟨st, rfl, h⟩
    · rw [if_neg hc]
      dsimp only
      cases hd : (keywords.getLast? != some keyword
          || locations.getLast? != some l) with
      | true =>
        simp only [hd, if_true]
        exact ih max_jobs _ (by simp [List.filter_append, h, hd])
      | false =>
        simp only [hd, Bool.false_eq_true, if_false]
        exact ih max_jobs _ (by simp [List.filter_append, h, hd])

lemma base_outerLoop_delays (build : String → String → String)
    (pages : String → List JobData) (keywords locations : List String) :
    ∀ (rest : List String) (max_jobs : Int) (st : ScrapeState),
      st.delays = st.requests.filter (fun p =>
          keywords.getLast? != some p.1 || locations.getLast? != some p.2) →
      ∃ st2, BaseScraper.outerLoop build (fun u => .ok (pages u)) keywords
            locations rest max_jobs st = .ok st2
        ∧ st2.delays = st2.requests.filter (fun p =>
            keywords.getLast? != some p.1 || locations.getLast? != some p.2) := by
  intro rest
  induction rest with
  | nil => intro max_jobs st h; exact ⟨st, rfl, h⟩
  | cons k ks ih =>
    intro max_jobs st h
    obtain ⟨st1, h1, hinv1⟩ :=
      base_innerLoop_delays build pages keywords locations k locations
        max_jobs st h
    rw [BaseScraper.outerLoop, h1]
    dsimp only
    by_cases hc : ((st1.jobs_scraped.length : Int) ≥ max_jobs)
    · rw [if_pos hc]; exact ⟨st1, rfl, hinv1⟩
    · rw [if_neg hc]
      exact ih max_jobs st1 hinv1

/-- C7 counterexample: with one keyword and one location the only
request is the very last request of the very last pair, yet
`IndeedScraper.scrape` still applies `random_delay` after it — the
delay is not skipped after the final request. -/
theorem c7_counterexample :
    (IndeedScraper.scrapeRun id fetchFail ["a"] ["b"] 50).requests = [("a", "b")]
    ∧ (IndeedScraper.scrapeRun id fetchFail ["a"] ["b"] 50).delays
        = [("a", "b")] := by decide

/-- C7 amended: `IndeedScraper.scrape` runs the rate-limiter delay
after every issued search request, including the very last one; the
base-class `BaseScraper.scrape` (on fault-free pages) skips the delay
exactly for requests whose keyword equals the last keyword value and
whose location equals the last location value — which is only the
final request when the keyword and location lists have distinct
entries. -/
theorem c7_delay_policy :
    (∀ (q : String → String) (fetch : String → Except String Page)
        (keywords locations : List String) (max_jobs : Int),
      (IndeedScraper.scrapeRun q fetch keywords locations max_jobs).delays
        = (IndeedScraper.scrapeRun q fetch keywords locations max_jobs).requests)
    ∧ (∀ (build : String → String → String) (pages : String → List JobData)
        (keywords locations : List String) (max_jobs : Int),
      (BaseScraper.scrapeRun build (fun u => .ok (pages u)) keywords locations
          max_jobs).delays
        = (BaseScraper.scrapeRun build (fun u => .ok (pages u)) keywords
            locations max_jobs).requests.filter (fun p =>
              keywords.getLast? != some p.1 || locations.getLast? != some p.2)) := by
  constructor
  · intro q fetch keywords locations max_jobs
    exact indeed_outerLoop_delays q fetch locations keywords max_jobs
      initState rfl
  · intro build pages keywords locations max_jobs
    obtain ⟨st2, h2, hinv⟩ :=
      base_outerLoop_delays build pages keywords locations keywords
        max_jobs initState rfl
    rw [BaseScraper.scrapeRun, h2]
    exact hinv

/-- C9: the base-class orchestrator catches every exception its
keyword×location loop raises: whenever the loop faults with partial
state `st`, `BaseScraper.scrape` still returns normally, with the
partial accumulator truncated to `max_jobs`, and no failure is
signalled to the caller. -/
theorem c9_base_scrape_catches_faults (build : String → String → String)
    (page : String → Except String (List JobData))
    (keywords locations : List String) (max_jobs : Int)
    (st : ScrapeState) (e : String)
    (h : BaseScraper.outerLoop build page keywords locations keywords max_jobs
        initState = .error (st, e)) :
    BaseScraper.scrapeRun build page keywords locations max_jobs = st
    ∧ BaseScraper.scrape build page keywords locations max_jobs
        = pyslice st.jobs_scraped max_jobs := by
  constructor
  · rw [BaseScraper.scrapeRun, h]
  · rw [BaseScraper.scrape, BaseScraper.scrapeRun, h]

/-- C9 witness: an oracle that raises on the first page still yields a
normal (empty) return from the base-class scrape. -/
theorem c9_base_scrape_catches_faults_witness :
    (BaseScraper.outerLoop build0 pageErr ["a"] ["b"] ["a"] 50 initState
        = .error ({ jobs_scraped := [], requests := [("a", "b")], delays := [] },
            "boom"))
    ∧ (BaseScraper.scrapeRun build0 pageErr ["a"] ["b"] 50
          = { jobs_scraped := [], requests := [("a", "b")], delays := [] }
      ∧ BaseScraper.scrape build0 pageErr ["a"] ["b"] 50
          = pyslice (ScrapeState.jobs_scraped
              { jobs_scraped := [], requests := [("a", "b")], delays := [] }) 50) :=
  ⟨rfl,
   c9_base_scrape_catches_faults build0 pageErr ["a"] ["b"] 50
     { jobs_scraped := [], requests := [("a", "b")], delays := [] } "boom"
     rfl⟩

end JobTracker
